import Mathlib

/-
Shallow embedding of the habit-tracker application logic (src/App.js).

The embedded operations are the store/persistence functions of App.js:
loadHabits, saveHabits, toggleHabit, addHabit, removeHabit and
clearAllHabits.  UI rendering, dialogs and styles are not modelled.
Wall-clock effects are passed explicitly: the date stamp produced by
new Date().toDateString() becomes a String parameter, and Date.now()
(used by addHabit as an id source) becomes a Nat parameter.
-/

set_option autoImplicit false

namespace HabitTracker

/-- A habit record, mirroring the object shape
«{ id, name, description, completed }» used throughout App.js. -/
structure Habit where
  id : String
  name : String
  description : String
  completed : Bool
deriving DecidableEq, Repr

/-- The built-in default list INITIAL_HABITS of App.js (lines 18-24). -/
def INITIAL_HABITS : List Habit :=
  [ { id := "1", name := "Drink Water", description := "Drink 8 glasses", completed := false },
    { id := "2", name := "Exercise", description := "30 minutes workout", completed := false },
    { id := "3", name := "Read", description := "Read for 20 minutes", completed := false },
    { id := "4", name := "Meditate", description := "10 minutes meditation", completed := false },
    { id := "5", name := "Eat Healthy", description := "Include vegetables", completed := false } ]

/-- The observable content of the single AsyncStorage slot as loadHabits
sees it:
* absent: getItem returned null (first run, or storage cleared);
* corrupt: getItem or JSON.parse threw (the catch branch of loadHabits);
* parsed: JSON.parse succeeded; the habits field is some list when
  Array.isArray(parsed.habits) holds and none otherwise
  (missing or non-array), and the date field is some string when the
  blob carries a string date and none otherwise. -/
inductive StoredData where
  | absent
  | corrupt
  | parsed (habits : Option (List Habit)) (date : Option String)
deriving DecidableEq, Repr

/-- The per-record reset applied by the new-day branch of loadHabits
(line 75): (h) => (\x7b ...h, completed: false \x7d). -/
def resetCompleted (h : Habit) : Habit :=
  { h with completed := false }

/-- loadHabits of App.js (lines 52-82), as a function from the stored
slot content and the current date stamp to the habit list installed by
setHabits.  Absent data and any read/parse error fall back to
INITIAL_HABITS; otherwise a non-array habits field falls back to
INITIAL_HABITS, a matching date keeps the saved list verbatim, and a
differing (or missing) date clears every completed flag. -/
def loadHabits : StoredData → String → List Habit
  | .absent, _ => INITIAL_HABITS
  | .corrupt, _ => INITIAL_HABITS
  | .parsed habitsOpt dateOpt, today =>
      let savedHabits := habitsOpt.getD INITIAL_HABITS
      if dateOpt = some today then savedHabits
      else savedHabits.map resetCompleted

/-- saveHabits of App.js (lines 84-91): serializes the current store
together with the current date stamp into the storage slot.  A successful
write followed by a successful parse yields exactly this parsed value. -/
def saveHabits (store : List Habit) (today : String) : StoredData :=
  .parsed (some store) (some today)

/-- toggleHabit of App.js (lines 93-97): flips completed on the record
whose id matches, leaving every other record unchanged. -/
def toggleHabit (id : String) (s : List Habit) : List Habit :=
  s.map fun h => if h.id = id then { h with completed := !h.completed } else h

/-- JavaScript String.prototype.trim, as used by addHabit on both form
fields: remove whitespace from both ends of the string. -/
def jsTrim (s : String) : String :=
  String.mk (((s.data.dropWhile Char.isWhitespace).reverse.dropWhile
    Char.isWhitespace).reverse)

/-- addHabit of App.js (lines 99-121).  Inputs are the two form fields
and the value of Date.now().  Returns none when the trimmed name is
empty (the Alert branch: no mutation), otherwise some of the new list
with the fresh record appended.  The description falls back to
"No description" when its trimmed form is empty (the || default). -/
def addHabit (nameInput descInput : String) (now : Nat) (store : List Habit) :
    Option (List Habit) :=
  let name := jsTrim nameInput
  let descr := jsTrim descInput
  if name = "" then none
  else
    some (store ++
      [ { id := toString now, name := name,
          description := if descr = "" then "No description" else descr,
          completed := false } ])

/-- The store after an addHabit call: the appended list on success, the
unchanged store when the validation error fired. -/
def addHabitApply (nameInput descInput : String) (now : Nat) (store : List Habit) :
    List Habit :=
  (addHabit nameInput descInput now store).getD store

/-- The confirmed removal of removeHabit (line 134):
prev.filter((h) => h.id !== id).  The confirmation dialog itself is UI
and not modelled. -/
def removeHabit (id : String) (s : List Habit) : List Habit :=
  s.filter fun h => h.id != id

/-- The resetAll operation the spec describes for the daily rollover:
completed := false on every record, list and order kept.  In App.js this
map appears inline in loadHabits (line 75). -/
def resetAllCompleted (s : List Habit) : List Habit :=
  s.map resetCompleted

/-- The confirmed action of clearAllHabits (lines 149-152): the store is
replaced by INITIAL_HABITS, regardless of its current content. -/
def clearAllHabits (_store : List Habit) : List Habit :=
  INITIAL_HABITS

/-- The storage effect of the confirmed clearAllHabits action:
AsyncStorage.removeItem(STORAGE_KEY) empties the slot. -/
def clearAllHabitsStorage : StoredData :=
  .absent

/-- The store mutations of App.js, for reasoning about operation
sequences.  add carries the two form fields and the Date.now() value;
reset is the rollover reset (completed := false everywhere). -/
inductive Op where
  | add (nameInput descInput : String) (now : Nat)
  | remove (id : String)
  | toggle (id : String)
  | reset
deriving Repr

/-- One operation applied to the store. -/
def applyOp : Op → List Habit → List Habit
  | .add n d t, s => addHabitApply n d t s
  | .remove i, s => removeHabit i s
  | .toggle i, s => toggleHabit i s
  | .reset, s => resetAllCompleted s

/-- A sequence of operations applied left to right. -/
def applyOps : List Op → List Habit → List Habit
  | [], s => s
  | op :: ops, s => applyOps ops (applyOp op s)

/-- Freshness of the Date.now()-derived ids along an operation sequence:
the id of each add (the decimal string of its timestamp) must differ from
every id ever used before it, adds included, starting from the given
already-used ids. -/
def freshAdds : List Op → List String → Bool
  | [], _ => true
  | .add _ _ t :: ops, used =>
      !(used.contains (toString t)) && freshAdds ops (toString t :: used)
  | _ :: ops, used => freshAdds ops used

/-! ## Helper lemmas -/

@[simp]
theorem resetCompleted_id (h : Habit) : (resetCompleted h).id = h.id := rfl

@[simp]
theorem resetCompleted_name (h : Habit) : (resetCompleted h).name = h.name := rfl

@[simp]
theorem resetCompleted_descr (h : Habit) : (resetCompleted h).description = h.description := rfl

@[simp]
theorem resetCompleted_completed (h : Habit) : (resetCompleted h).completed = false := rfl

/-- A blank trimmed name makes addHabit signal the validation error. -/
theorem addHabit_of_blank (n d : String) (t : Nat) (s : List Habit)
    (hn : jsTrim n = "") : addHabit n d t s = none := by
  simp [addHabit, hn]

/-- A non-blank trimmed name makes addHabit append the fresh record. -/
theorem addHabit_of_nonblank (n d : String) (t : Nat) (s : List Habit)
    (hn : jsTrim n ≠ "") :
    addHabit n d t s = some (s ++
      [ { id := toString t, name := jsTrim n,
          description := if jsTrim d = "" then "No description" else jsTrim d,
          completed := false } ]) := by
  simp [addHabit, hn]

/-- toggleHabit never changes the id column of the store. -/
theorem toggleHabit_map_id (i : String) (s : List Habit) :
    (toggleHabit i s).map Habit.id = s.map Habit.id := by
  unfold toggleHabit
  rw [List.map_map]
  apply List.map_congr_left
  intro a _
  by_cases hid : a.id = i <;> simp [hid]

/-- resetAllCompleted never changes the id column of the store. -/
theorem resetAll_map_id (s : List Habit) :
    (resetAllCompleted s).map Habit.id = s.map Habit.id := by
  unfold resetAllCompleted
  rw [List.map_map]
  apply List.map_congr_left
  intro a _
  rfl

/-- The id-uniqueness invariant is preserved along any operation
sequence whose adds all use fresh ids: if the ids of the current store
are pairwise distinct and all drawn from the already-used pool, they
stay pairwise distinct. -/
theorem applyOps_nodup_aux (ops : List Op) :
    ∀ (s : List Habit) (used : List String),
      (∀ i ∈ s.map Habit.id, i ∈ used) →
      (s.map Habit.id).Nodup →
      freshAdds ops used = true →
      ((applyOps ops s).map Habit.id).Nodup := by
  induction ops with
  | nil =>
    intro s used _ hnd _
    exact hnd
  | cons op ops ih =>
    intro s used hsub hnd hf
    cases op with
    | add n d t =>
      rw [freshAdds] at hf
      rw [Bool.and_eq_true] at hf
      obtain ⟨hfresh, hrest⟩ := hf
      have hnotUsed : toString t ∉ used := by
        simpa using hfresh
      by_cases hn : jsTrim n = ""
      · have hno : applyOp (Op.add n d t) s = s := by
          simp [applyOp, addHabitApply, addHabit_of_blank n d t s hn]
        rw [applyOps, hno]
        exact ih s (toString t :: used)
          (fun i hi => List.mem_cons_of_mem _ (hsub i hi)) hnd hrest
      · have hyes : applyOp (Op.add n d t) s = s ++
            [ { id := toString t, name := jsTrim n,
                description := if jsTrim d = "" then "No description" else jsTrim d,
                completed := false } ] := by
          simp [applyOp, addHabitApply, addHabit_of_nonblank n d t s hn]
        rw [applyOps, hyes]
        apply ih _ (toString t :: used)
        · intro i hi
          rw [List.map_append, List.mem_append] at hi
          cases hi with
          | inl hiold => exact List.mem_cons_of_mem _ (hsub i hiold)
          | inr hinew =>
            simp only [List.map_cons, List.map_nil, List.mem_singleton] at hinew
            rw [hinew]
            exact List.mem_cons_self _ _
        · rw [List.map_append, List.nodup_append]
          refine ⟨hnd, List.nodup_singleton _, ?_⟩
          intro i hiold hinew
          simp only [List.map_cons, List.map_nil, List.mem_singleton] at hinew
          exact hnotUsed (hinew ▸ hsub i hiold)
        · exact hrest
    | remove i =>
      rw [applyOps]
      apply ih _ used
      · intro j hj
        rw [List.mem_map] at hj
        obtain ⟨a, ha, rfl⟩ := hj
        exact hsub a.id (List.mem_map_of_mem Habit.id (List.mem_of_mem_filter ha))
      · exact ((List.filter_sublist s).map Habit.id).nodup hnd
      · exact hf
    | toggle i =>
      rw [applyOps]
      apply ih _ used
      · intro j hj
        rw [applyOp, toggleHabit_map_id] at hj
        exact hsub j hj
      · rw [applyOp, toggleHabit_map_id]
        exact hnd
      · exact hf
    | reset =>
      rw [applyOps]
      apply ih _ used
      · intro j hj
        rw [applyOp, resetAll_map_id] at hj
        exact hsub j hj
      · rw [applyOp, resetAll_map_id]
        exact hnd
      · exact hf

/-! ## Claim theorems -/

/-- Claim C1: when the stored snapshot carries a date stamp different
from the current one, the session-start load initializes the store from
the stored habits with every completed flag cleared, preserving the
list itself: ids, names, descriptions, length and order are exactly
those of the snapshot. -/
theorem loadHabits_new_day_resets (hs : List Habit) (d today : String)
    (hd : d ≠ today) :
    loadHabits (StoredData.parsed (some hs) (some d)) today = hs.map resetCompleted ∧
    (loadHabits (StoredData.parsed (some hs) (some d)) today).map Habit.id = hs.map Habit.id ∧
    (loadHabits (StoredData.parsed (some hs) (some d)) today).map Habit.name = hs.map Habit.name ∧
    (loadHabits (StoredData.parsed (some hs) (some d)) today).map Habit.description
      = hs.map Habit.description ∧
    (loadHabits (StoredData.parsed (some hs) (some d)) today).length = hs.length ∧
    ∀ h ∈ loadHabits (StoredData.parsed (some hs) (some d)) today, h.completed = false := by
  have heq : loadHabits (StoredData.parsed (some hs) (some d)) today
      = hs.map resetCompleted := by
    simp [loadHabits, hd]
  refine ⟨heq, ?_, ?_, ?_, ?_, ?_⟩ <;> rw [heq]
  · rw [List.map_map]
    exact List.map_congr_left fun a _ => rfl
  · rw [List.map_map]
    exact List.map_congr_left fun a _ => rfl
  · rw [List.map_map]
    exact List.map_congr_left fun a _ => rfl
  · exact List.length_map _ _
  · intro h hh
    rw [List.mem_map] at hh
    obtain ⟨a, _, rfl⟩ := hh
    rfl

/-- Witness for C1: a concrete snapshot written on one day, loaded on
the next, with its one completed flag cleared. -/
theorem loadHabits_new_day_resets_witness :
    ("Mon Jan 01 2024" : String) ≠ "Tue Jan 02 2024" ∧
    (loadHabits (StoredData.parsed
        (some [ { id := "9", name := "Stretch", description := "5 min", completed := true } ])
        (some "Mon Jan 01 2024")) "Tue Jan 02 2024"
      = ([ { id := "9", name := "Stretch", description := "5 min", completed := true } ]
          : List Habit).map resetCompleted ∧
    (loadHabits (StoredData.parsed
        (some [ { id := "9", name := "Stretch", description := "5 min", completed := true } ])
        (some "Mon Jan 01 2024")) "Tue Jan 02 2024").map Habit.id
      = ([ { id := "9", name := "Stretch", description := "5 min", completed := true } ]
          : List Habit).map Habit.id ∧
    (loadHabits (StoredData.parsed
        (some [ { id := "9", name := "Stretch", description := "5 min", completed := true } ])
        (some "Mon Jan 01 2024")) "Tue Jan 02 2024").map Habit.name
      = ([ { id := "9", name := "Stretch", description := "5 min", completed := true } ]
          : List Habit).map Habit.name ∧
    (loadHabits (StoredData.parsed
        (some [ { id := "9", name := "Stretch", description := "5 min", completed := true } ])
        (some "Mon Jan 01 2024")) "Tue Jan 02 2024").map Habit.description
      = ([ { id := "9", name := "Stretch", description := "5 min", completed := true } ]
          : List Habit).map Habit.description ∧
    (loadHabits (StoredData.parsed
        (some [ { id := "9", name := "Stretch", description := "5 min", completed := true } ])
        (some "Mon Jan 01 2024")) "Tue Jan 02 2024").length
      = ([ { id := "9", name := "Stretch", description := "5 min", completed := true } ]
          : List Habit).length ∧
    ∀ h ∈ loadHabits (StoredData.parsed
        (some [ { id := "9", name := "Stretch", description := "5 min", completed := true } ])
        (some "Mon Jan 01 2024")) "Tue Jan 02 2024", h.completed = false) :=
  ⟨by decide, loadHabits_new_day_resets
    [ { id := "9", name := "Stretch", description := "5 min", completed := true } ]
    "Mon Jan 01 2024" "Tue Jan 02 2024" (by decide)⟩

/-- Claim C2 counterexample: on a store different from the defaults,
the confirmed explicit reset action does not behave as resetAll - it
discards the current list rather than clearing its completed flags. -/
theorem clearAllHabits_counterexample :
    clearAllHabits
        [ { id := "x1", name := "Stretch", description := "5 min", completed := true } ]
      ≠ resetAllCompleted
        [ { id := "x1", name := "Stretch", description := "5 min", completed := true } ] := by
  decide

/-- Claim C2 (amended): the confirmed explicit reset action replaces
the current store with the built-in default list, whose completed flags
are all false, and empties the storage slot; it does not preserve the
current list. -/
theorem clearAllHabits_restores_defaults (s : List Habit) :
    clearAllHabits s = INITIAL_HABITS ∧
    (∀ h ∈ clearAllHabits s, h.completed = false) ∧
    clearAllHabitsStorage = StoredData.absent :=
  ⟨rfl, (by decide : ∀ h ∈ INITIAL_HABITS, h.completed = false), rfl⟩

/-- Claim C3: saving the store and loading it back under the same date
stamp returns the habit list unchanged in length, order and every
field, completed flags included. -/
theorem save_then_load_same_day (s : List Habit) (today : String) :
    loadHabits (saveHabits s today) today = s := by
  simp [saveHabits, loadHabits]

/-- Claim C4: an absent slot and a read/parse error both make load fall
back to the built-in default list, every completed flag false; the load
function is total, so the session never fails fatally. -/
theorem loadHabits_absent_defaults (today : String) :
    loadHabits StoredData.absent today = INITIAL_HABITS ∧
    loadHabits StoredData.corrupt today = INITIAL_HABITS ∧
    ∀ h ∈ INITIAL_HABITS, h.completed = false :=
  ⟨rfl, rfl, by decide⟩

/-- Claim C5: with a non-blank trimmed name, add appends exactly one
record at the end of the store: its id is the stamp, its name the
trimmed input, its description the trimmed input or the placeholder
when blank, its completed flag false; the length grows by one. -/
theorem addHabit_nonblank_appends (n d : String) (t : Nat) (s : List Habit)
    (hn : jsTrim n ≠ "") :
    addHabitApply n d t s = s ++
      [ { id := toString t, name := jsTrim n,
          description := if jsTrim d = "" then "No description" else jsTrim d,
          completed := false } ] ∧
    (addHabitApply n d t s).length = s.length + 1 := by
  have h := addHabit_of_nonblank n d t s hn
  refine ⟨?_, ?_⟩ <;> rw [addHabitApply, h] <;> simp

/-- Witness for C5: adding "Stretch" with a blank description to the
default store. -/
theorem addHabit_nonblank_appends_witness :
    jsTrim "Stretch" ≠ "" ∧
    (addHabitApply "Stretch" "   " 42 INITIAL_HABITS = INITIAL_HABITS ++
      [ { id := toString (42 : Nat), name := jsTrim "Stretch",
          description := if jsTrim "   " = "" then "No description" else jsTrim "   ",
          completed := false } ] ∧
    (addHabitApply "Stretch" "   " 42 INITIAL_HABITS).length = INITIAL_HABITS.length + 1) :=
  ⟨by decide, addHabit_nonblank_appends "Stretch" "   " 42 INITIAL_HABITS (by decide)⟩

/-- Claim C6: with a blank trimmed name, add signals the validation
error and the store is left entirely unchanged. -/
theorem addHabit_blank_noop (n d : String) (t : Nat) (s : List Habit)
    (hn : jsTrim n = "") :
    addHabit n d t s = none ∧ addHabitApply n d t s = s := by
  have h := addHabit_of_blank n d t s hn
  exact ⟨h, by rw [addHabitApply, h]; simp⟩

/-- Witness for C6: adding a whitespace-only name to the default
store. -/
theorem addHabit_blank_noop_witness :
    jsTrim "   " = "" ∧
    (addHabit "   " "x" 7 INITIAL_HABITS = none ∧
     addHabitApply "   " "x" 7 INITIAL_HABITS = INITIAL_HABITS) :=
  ⟨by decide, addHabit_blank_noop "   " "x" 7 INITIAL_HABITS (by decide)⟩

/-- Claim C7 counterexample: two adds carrying the same Date.now()
stamp produce two records with the same id, so id uniqueness does not
hold over every operation sequence. -/
theorem applyOps_duplicate_ids_counterexample :
    ¬ (((applyOps [Op.add "a" "" 100, Op.add "b" "" 100] INITIAL_HABITS).map
        Habit.id).Nodup) := by
  decide

/-- Claim C7 (amended): along any operation sequence from the default
list whose adds all use fresh ids - the stamp string of each add is
distinct from every id used before it, removed ones included - the ids
in the store remain pairwise distinct, and no id is ever reused. -/
theorem applyOps_ids_nodup (ops : List Op)
    (hf : freshAdds ops (INITIAL_HABITS.map Habit.id) = true) :
    ((applyOps ops INITIAL_HABITS).map Habit.id).Nodup :=
  applyOps_nodup_aux ops INITIAL_HABITS (INITIAL_HABITS.map Habit.id)
    (fun _ hi => hi) (by decide) hf

/-- Witness for C7: a concrete sequence of adds, a removal, a toggle
and a reset with fresh stamps keeps the ids pairwise distinct. -/
theorem applyOps_ids_nodup_witness :
    freshAdds [Op.add "a" "" 100, Op.remove "2", Op.add "b" "x" 101, Op.toggle "1", Op.reset]
        (INITIAL_HABITS.map Habit.id) = true ∧
    ((applyOps [Op.add "a" "" 100, Op.remove "2", Op.add "b" "x" 101, Op.toggle "1", Op.reset]
        INITIAL_HABITS).map Habit.id).Nodup :=
  ⟨by decide, applyOps_ids_nodup
    [Op.add "a" "" 100, Op.remove "2", Op.add "b" "x" 101, Op.toggle "1", Op.reset]
    (by decide)⟩

/-- Claim C8: toggling the same id twice returns the store to exactly
its original state. -/
theorem toggleHabit_involutive (i : String) (s : List Habit) :
    toggleHabit i (toggleHabit i s) = s := by
  unfold toggleHabit
  rw [List.map_map]
  have hpt : ∀ a ∈ s,
      ((fun h : Habit => if h.id = i then { h with completed := !h.completed } else h) ∘
        fun h : Habit => if h.id = i then { h with completed := !h.completed } else h) a
        = id a := by
    intro a _
    rcases a with ⟨aid, aname, adesc, acomp⟩
    by_cases hid : aid = i <;> simp [Function.comp, hid]
  rw [List.map_congr_left hpt, List.map_id]

/-- Claim C9: the confirmed removal is idempotent - removing the same
id a second time changes nothing, as no record with that id remains. -/
theorem removeHabit_idempotent (i : String) (s : List Habit) :
    removeHabit i (removeHabit i s) = removeHabit i s := by
  unfold removeHabit
  rw [List.filter_filter]
  exact List.filter_congr fun a _ => by simp

/-- Claim C10: a blob that parses but whose habits field is missing or
not an array makes load fall back to the built-in default list; the
date-stamp rule still applies to it, and since the defaults carry no
completed flag the result is the default list either way. -/
theorem loadHabits_bad_habits_field (d : Option String) (today : String) :
    loadHabits (StoredData.parsed none d) today =
      (if d = some today then INITIAL_HABITS else INITIAL_HABITS.map resetCompleted) ∧
    loadHabits (StoredData.parsed none d) today = INITIAL_HABITS := by
  have hreset : INITIAL_HABITS.map resetCompleted = INITIAL_HABITS := by decide
  by_cases hd : d = some today
  · constructor <;> simp [loadHabits, hd]
  · constructor <;> simp [loadHabits, hd, hreset]

end HabitTracker
